import Mathlib

/-!
Verification of the InfraGPT repository against its natural-language
specification.

This file gives a shallow embedding, in Lean 4, of the parts of the InfraGPT
source code that the frozen claims C1..C10 are about, and proves or refutes
each claim against that embedding.  Python strings are modelled as `String`
(lists of characters); Python dicts are modelled as association lists with
insertion-order-preserving update, mirroring CPython semantics; filesystem
state (history file, cache directory) is modelled as explicit values threaded
through the functions.  Nondeterministic inputs of the source (uuid4 ids,
wall-clock timestamps) are taken as explicit parameters.
-/

namespace InfraGPT

/-! ### Python built-in helpers

Helpers modelling the Python built-ins used by the embedded functions.
All are executable and kernel-reducible so that concrete runs can be
checked with `decide` / `rfl`.
-/

/-- Python dict lookup `d.get(k)` on an insertion-ordered association list. -/
def dictGet {α : Type} (d : List (String × α)) (k : String) : Option α :=
  match d with
  | [] => none
  | (k', v) :: rest => if k' = k then some v else dictGet rest k

/-- Python dict assignment `d[k] = v`: updates the value in place if the key
exists (keeping its insertion position), else appends the new pair. -/
def dictSet {α : Type} (d : List (String × α)) (k : String) (v : α) :
    List (String × α) :=
  match d with
  | [] => [(k, v)]
  | (k', v') :: rest =>
    if k' = k then (k', v) :: rest else (k', v') :: dictSet rest k v

/-- Python dict membership `k in d`. -/
def dictHasKey {α : Type} (d : List (String × α)) (k : String) : Bool :=
  match d with
  | [] => false
  | (k', _) :: rest => k' = k || dictHasKey rest k

/-- Whether the character list `pre` occurs at the head of `l`
(Python `str.startswith`, on characters). -/
def listStartsWith : List Char → List Char → Bool
  | [], _ => true
  | _ :: _, [] => false
  | a :: as, b :: bs => a = b && listStartsWith as bs

/-- Whether `needle` occurs as a contiguous substring of `haystack`
(Python `needle in haystack`, on characters). -/
def occursList (needle : List Char) : List Char → Bool
  | [] => listStartsWith needle []
  | c :: rest => listStartsWith needle (c :: rest) || occursList needle rest

/-- Python substring containment `needle in haystack` on strings. -/
def occursIn (needle haystack : String) : Bool :=
  occursList needle.data haystack.data

/-- Python `str.lower()` (ASCII case folding, which covers every string the
embedded code compares after lowering). -/
def pyLower (s : String) : String :=
  String.mk (s.data.map Char.toLower)

/-- Python `str.strip()` with no argument: drop leading and trailing
whitespace. -/
def pyStrip (s : String) : String :=
  String.mk
    (((s.data.dropWhile Char.isWhitespace).reverse.dropWhile
      Char.isWhitespace).reverse)

/-- Python `str.split()` with no argument: split on runs of whitespace,
discarding empty fields. -/
def pySplitWs (s : String) : List String :=
  ((List.splitOnP Char.isWhitespace s.data).filter (· ≠ [])).map String.mk

/-- One step of Python `str.splitlines()`: the content of the first line and
the remainder after its line terminator (handling `\n`, `\r\n` and `\r`). -/
def breakAtNewline : List Char → List Char × List Char
  | [] => ([], [])
  | c :: rest =>
    if c = '\n' then ([], rest)
    else if c = '\r' then
      if rest.head? = some '\n' then ([], rest.tail) else ([], rest)
    else
      let p := breakAtNewline rest
      (c :: p.1, p.2)

/-- Recursion core of Python `str.splitlines()`.  Each step consumes at
least one character (see `breakAtNewline_snd_lt`, proved below), so a fuel
of the input length is always enough; fuel keeps the recursion structural
and hence kernel-reducible. -/
def splitLinesFuel : Nat → List Char → List (List Char)
  | 0, _ => []
  | _ + 1, [] => []
  | fuel + 1, c :: rest =>
    (breakAtNewline (c :: rest)).1 ::
      splitLinesFuel fuel (breakAtNewline (c :: rest)).2

/-- Python `str.splitlines()` on characters: each line terminator ends a
line; a trailing terminator does not create an extra empty line. -/
def pySplitLinesChars (l : List Char) : List (List Char) :=
  splitLinesFuel l.length l

/-! ### Command-string parsing

Embedding of `parse_command_parameters`, `split_commands` and the
decision structure of `handle_command_result`.  The two copies of
`parse_command_parameters` and `split_commands` in the source
(`src/cli/prompts.py` lines 36-69/165-172 and
`src/infragpt/core/commands.py` lines 424-464/138-161, the latter as
`CommandParser.process`) are character-for-character identical in logic, so
one embedding covers both.
-/

/-- Character class of the regex `[A-Z_]`. -/
def isUpperOrUnderscore (c : Char) : Bool :=
  ('A' ≤ c && c ≤ 'Z') || c = '_'

mutual
/-- Left-to-right scan implementing `re.findall(r'\[([A-Z_]+)\]', s)`: find a
`[`, then hand over to `scanRun` to collect the bracketed run.  Because the
run class `[A-Z_]` contains neither `[` nor `]`, the regex engine's
retry-from-next-position behaviour on a failed match is equivalent to
resuming the scan at the character that broke the run, which is what
`scanRun` does. -/
def findBracketMatches : List Char → List String
  | [] => []
  | c :: rest =>
    if c = '[' then scanRun [] rest else findBracketMatches rest

/-- Collect a maximal run of `[A-Z_]` characters after an opening `[`; emit
it when a `]` closes a nonempty run, otherwise resume the outer scan. -/
def scanRun (run : List Char) : List Char → List String
  | [] => []
  | c :: rest =>
    if isUpperOrUnderscore c then scanRun (run ++ [c]) rest
    else if c = ']' && !run.isEmpty then String.mk run :: findBracketMatches rest
    else if c = '[' then scanRun [] rest
    else findBracketMatches rest
end

/-- Loop state of the token loop in `parse_command_parameters`:
`base` is `base_command`, `params` the parameter dict, `current` the
pending `current_param`, `brackets` the `bracket_params` list. -/
structure ParseAcc where
  base : List String
  params : List (String × Option String)
  current : Option String
  brackets : List String

/-- The flag/value/base-command branch of the token loop (everything in the
loop body after the bracket extraction).  Never touches `brackets`. -/
def processFlagToken (acc : ParseAcc) (part : String) : ParseAcc :=
  if listStartsWith ['-', '-'] part.data then
    if part.data.any (· == '=') then
      let nameChars := part.data.takeWhile (fun c => !(c == '='))
      let valueChars := (part.data.dropWhile (fun c => !(c == '='))).tail
      { acc with
        params :=
          dictSet acc.params (String.mk (nameChars.drop 2))
            (some (String.mk valueChars)) }
    else
      let cur := String.mk (part.data.drop 2)
      { acc with params := dictSet acc.params cur none, current := some cur }
  else
    match acc.current with
    | some cur =>
      { acc with params := dictSet acc.params cur (some part), current := none }
    | none => { acc with base := acc.base ++ [part] }

/-- One iteration of the `for part in parts` loop of
`parse_command_parameters`: first extract bracket placeholders from the
token, then run the flag logic. -/
def processToken (acc : ParseAcc) (part : String) : ParseAcc :=
  processFlagToken
    { acc with brackets := acc.brackets ++ findBracketMatches part.data } part

/-- Embedding of `parse_command_parameters(command)` from
`src/cli/prompts.py` / `src/infragpt/core/commands.py`: returns
`(base_command, params, bracket_params)`. -/
def parse_command_parameters (command : String) :
    String × List (String × Option String) × List String :=
  let acc := (pySplitWs command).foldl processToken ⟨[], [], none, []⟩
  (" ".intercalate acc.base, acc.params, acc.brackets)

/-- The literal fallback string produced by the command-generation prompt. -/
def fulfillSentinel : String := "Request cannot be fulfilled."

/-- The newline-splitting branch of `split_commands`:
`[cmd.strip() for cmd in result.splitlines() if cmd.strip()]`. -/
def newlineSplit (result : String) : List String :=
  ((pySplitLinesChars result.data).map (fun l => pyStrip (String.mk l))).filter
    (· ≠ "")

/-- Embedding of `split_commands(result)` from `src/cli/prompts.py` lines
165-172 (identical logic to `CommandParser.process` in
`src/infragpt/core/commands.py` lines 141-161): the guard is the Python
substring test `"Request cannot be fulfilled." in result`. -/
def split_commands (result : String) : List String :=
  if occursIn fulfillSentinel result then [result] else newlineSplit result

/-- Decision taken by `handle_command_result` (src/cli/prompts.py lines
175-218) before any interactive work: no commands at all, stop after
printing the sentinel, or proceed to parameter prompting / the action menu
with the split commands.  The console printing itself is abstracted away;
the constructor records which branch returns early. -/
inductive DisplayOutcome where
  | noCommands
  | sentinelStop
  | proceeds (commands : List String)
deriving DecidableEq

/-- Embedding of the branch structure of `handle_command_result(result)`:
split, return on empty, return after printing when the first command is
exactly the sentinel, otherwise continue to prompting and the action menu. -/
def handle_command_result (result : String) : DisplayOutcome :=
  let commands := split_commands result
  if commands = [] then .noCommands
  else if commands.head? = some fulfillSentinel then .sentinelStop
  else .proceeds commands

/-! ### LLM response cache

Embedding of `LLMResponseCache` from `src/infragpt/core/llm.py` lines
28-131.  The cache directory is modelled as an association list from file
key to entry; `hash` abstracts `hashlib.md5(...).hexdigest()` (the source
only ever uses the digest as an opaque file name); timestamps
(`time.time()` floats) are modelled as integers, which preserves the
comparison `now - timestamp > ttl` for the integral offsets the claims are
about.
-/

namespace LLMResponseCache

/-- One cache file `{model, prompt, system_prompt, response, timestamp}`. -/
structure CacheEntry where
  model : String
  prompt : String
  system_prompt : Option String
  response : String
  timestamp : Int
deriving DecidableEq

/-- The cache directory: file name (MD5 digest) to parsed JSON content. -/
abbrev CacheDir := List (String × CacheEntry)

/-- Embedding of `_get_cache_key`'s pre-hash data:
`f"{model}:{prompt}"` plus `":{system_prompt}"` when truthy. -/
def keyData (model prompt : String) (system_prompt : Option String) : String :=
  model ++ ":" ++ prompt ++
    (match system_prompt with
     | some s => if s = "" then "" else ":" ++ s
     | none => "")

/-- Remove the file at `key` from the cache directory
(`cache_path.unlink`). -/
def removeKey (dir : CacheDir) (key : String) : CacheDir :=
  dir.filter (fun kv => !(kv.1 = key : Bool))

/-- Embedding of `LLMResponseCache.get` (lines 56-81): look the key up; a
missing file is a miss; an entry older than `ttl` is expired, is deleted,
and is a miss; otherwise return the stored response.  Returns the result
together with the cache directory after the read. -/
def get (ttl : Int) (hash : String → String) (dir : CacheDir)
    (model prompt : String) (system_prompt : Option String) (now : Int) :
    Option String × CacheDir :=
  let key := hash (keyData model prompt system_prompt)
  match dictGet dir key with
  | none => (none, dir)
  | some entry =>
    if now - entry.timestamp > ttl then (none, removeKey dir key)
    else (some entry.response, dir)

end LLMResponseCache

/-! ### JSON-like values

Shared model of the Python dict/list/str/int/bool/None values that flow
through the config and history subsystems.
-/

/-- A Python value as serialized to JSON or YAML by the config and history
code: strings, integers, booleans, `None`, lists and insertion-ordered
dicts. -/
inductive JsonVal where
  | s (v : String)
  | i (v : Int)
  | b (v : Bool)
  | null
  | arr (items : List JsonVal)
  | obj (fields : List (String × JsonVal))

/-! ### Configuration subsystem

Embedding of the versioned `Config` object from
`src/infragpt/utils/config.py`.  The YAML file contents are modelled as an
already-parsed top-level dict (`yaml.safe_load` of an empty file gives
`{}`, and parse errors take the same caught-exception path as a
non-integer `version`, leaving the state unloaded).
-/

namespace Config

/-- Python state of a `Config` object: the `_config` dict and the
`_loaded` flag. -/
structure State where
  config : List (String × JsonVal)
  loaded : Bool

/-- The constructor's default `_config` dict (lines 21-35). -/
def defaultConfig : List (String × JsonVal) :=
  [("version", .i 1),
   ("credentials", .obj [("default", .null), ("profiles", .obj [])]),
   ("settings",
     .obj
       [("default_model", .s "gpt4o"), ("history_limit", .i 100),
        ("verbose", .b false)])]

/-- A freshly constructed `Config()`. -/
def new : State := ⟨defaultConfig, false⟩

/-- Update the value stored under `k` when it is a dict, applying `f` to
its fields (models the in-place nested assignment
`self._config[k][...] = ...`; on the states reached here `k` is always
present and holds a dict). -/
def updateDictAt (d : List (String × JsonVal)) (k : String)
    (f : List (String × JsonVal) → List (String × JsonVal)) :
    List (String × JsonVal) :=
  d.map (fun kv =>
    if kv.1 = k then
      (kv.1, match kv.2 with
             | .obj fields => .obj (f fields)
             | other => other)
    else kv)

/-- Embedding of `Config.load` (lines 37-73) applied to the parsed file
contents: `none` models a missing file, `some d` its parsed top-level
dict.  `version` is read with default 0; a config whose `version` value is
not an integer makes the comparison `file_version < 1` raise, which the
`except` clause turns into an unloaded state.  When `version < 1` and both
legacy keys exist, a `"default"` profile is synthesized from them and made
the default; otherwise for `version < 1` the constructor defaults are
kept, and for `version >= 1` the file contents replace `_config`
wholesale. -/
def load (st : State) (fileContents : Option (List (String × JsonVal))) :
    State :=
  match fileContents with
  | none => { st with loaded := false }
  | some loadedConfig =>
    match (match dictGet loadedConfig "version" with
           | none => some 0
           | some (.i v) => some v
           | some _ => none : Option Int) with
    | none => { st with loaded := false }
    | some fileVersion =>
      if fileVersion < 1 then
        if dictHasKey loadedConfig "model" &&
            dictHasKey loadedConfig "api_key" then
          let profileVal : JsonVal :=
            .obj
              [("model", (dictGet loadedConfig "model").getD .null),
               ("api_key", (dictGet loadedConfig "api_key").getD .null)]
          let c1 :=
            updateDictAt st.config "credentials" (fun cred =>
              dictSet
                (updateDictAt cred "profiles" (fun profs =>
                  dictSet profs "default" profileVal))
                "default" (.s "default"))
          { config := c1, loaded := true }
        else { st with loaded := true }
      else { config := loadedConfig, loaded := true }

/-- Embedding of `Config.get_profile_names` (lines 91-93). -/
def get_profile_names (st : State) : List String :=
  match dictGet st.config "credentials" with
  | some (.obj cred) =>
    match dictGet cred "profiles" with
    | some (.obj profs) => profs.map (·.1)
    | _ => []
  | _ => []

/-- Embedding of `Config.get_default_profile` (lines 95-97). -/
def get_default_profile (st : State) : Option JsonVal :=
  match dictGet st.config "credentials" with
  | some (.obj cred) => dictGet cred "default"
  | _ => none

/-- Embedding of `Config.get_credentials` (lines 110-121) on an
already-loaded state (the claims evaluate it after `load()`, so the lazy
re-load guard on `_loaded` is never taken).  Python truthiness: an absent
or `None` or empty-string profile falls back to the default pointer, and a
non-truthy or unknown resolved profile yields `{}`. -/
def get_credentials (st : State) (profileArg : Option String) : JsonVal :=
  let fromDefault : Option String :=
    match get_default_profile st with
    | some (.s nm) => if nm = "" then none else some nm
    | _ => none
  let profile : Option String :=
    match profileArg with
    | some p => if p = "" then fromDefault else some p
    | none => fromDefault
  match profile with
  | none => .obj []
  | some p =>
    if p ∈ get_profile_names st then
      match dictGet st.config "credentials" with
      | some (.obj cred) =>
        match dictGet cred "profiles" with
        | some (.obj profs) => (dictGet profs p).getD (.obj [])
        | _ => .obj []
      | _ => .obj []
    else .obj []

end Config

/-! ### Credential resolution

Embedding of `get_credentials` from `src/infragpt/core/llm.py` lines
415-496.  CLI options and environment variables are modelled as
`Option String` (`none` = not set); Python truthiness makes the empty
string equivalent to an unset value in every test the function performs.
The opportunistic `config.update_credentials` write-backs are side effects
on the config file that do not influence the returned outcome and are not
modelled.
-/

namespace CredentialResolution

/-- Python truthiness of an optional string. -/
def truthy : Option String → Bool
  | none => false
  | some s => !(s = "" : Bool)

/-- How `get_credentials` leaves the process: returning a model/key pair,
terminating via `sys.exit(1)`, or falling through to the interactive
`prompt_credentials` call. -/
inductive Outcome where
  | ok (model : String) (api_key : String)
  | exitOne
  | promptUser
deriving DecidableEq

/-- Embedding of `get_credentials(model_type, api_key)`:
priority 1 the CLI pair (key must be truthy and non-blank), priority 2 the
stored config pair, priority 3 the environment (with the fatal
one-key/other-model check), priority 4 the interactive prompt. -/
def get_credentials (model_type api_key : Option String)
    (stored_model stored_api_key : Option String)
    (openai_key anthropic_key env_model : Option String) : Outcome :=
  if truthy model_type && truthy api_key &&
      !(pyStrip (api_key.getD "") = "" : Bool) then
    .ok (model_type.getD "") (api_key.getD "")
  else if truthy stored_model && truthy stored_api_key &&
      !(pyStrip (stored_api_key.getD "") = "" : Bool) then
    .ok (stored_model.getD "") (stored_api_key.getD "")
  else
    let resolved_model : Option String :=
      if truthy model_type then model_type else env_model
    if truthy anthropic_key && truthy openai_key then
      if resolved_model = some "claude" then
        .ok "claude" (anthropic_key.getD "")
      else if resolved_model = some "gpt4o" then
        .ok "gpt4o" (openai_key.getD "")
      else if !truthy resolved_model then
        .ok "gpt4o" (openai_key.getD "")
      else .promptUser
    else if truthy anthropic_key then
      if truthy resolved_model && !(resolved_model = some "claude" : Bool) then
        .exitOne
      else .ok "claude" (anthropic_key.getD "")
    else if truthy openai_key then
      if truthy resolved_model && !(resolved_model = some "gpt4o" : Bool) then
        .exitOne
      else .ok "gpt4o" (openai_key.getD "")
    else .promptUser

end CredentialResolution

/-! ### Agent system readiness

Embedding of `AgentSystem` from
`src/services/agent/src/agents/registry.py`.  The relevant state is the
`_initialized` flag and whether `main_agent` is set; `initialize()` (whose
`MainAgent` construction only wires objects together and is modelled as
succeeding) is `initAgents` below.
-/

namespace AgentSystem

/-- Observable state of an `AgentSystem` instance. -/
structure State where
  initialized : Bool
  mainAgentPresent : Bool

/-- A freshly constructed `AgentSystem()` (lines 15-19). -/
def new : State := ⟨false, false⟩

/-- Embedding of `AgentSystem.initialize` (lines 21-38): a no-op (with a
warning) when already initialized, otherwise create the main agent and set
the flag. -/
def initAgents (st : State) : State :=
  if st.initialized then st else ⟨true, true⟩

/-- How `process_request` (lines 40-76) begins: it raises `RuntimeError`
before doing any work when the system is not initialized, and otherwise
delegates to `MainAgent.process` (whose behaviour is outside this claim). -/
inductive ProcessOutcome where
  | raisesNotInitialized
  | delegatesToMainAgent
deriving DecidableEq

/-- Embedding of the guard of `AgentSystem.process_request` (lines 50-51):
`if not self._initialized or not self.main_agent: raise RuntimeError(...)`. -/
def process_request (st : State) : ProcessOutcome :=
  if !st.initialized || !st.mainAgentPresent then .raisesNotInitialized
  else .delegatesToMainAgent

/-- Embedding of `AgentSystem.is_ready` (lines 97-99). -/
def is_ready (st : State) : Bool :=
  st.initialized && st.mainAgentPresent

/-- Result shape of `get_system_status` (lines 101-115): either the bare
`{"status": "not_initialized"}` dict or the full report (whose nested
per-agent map is outside this claim and not modelled). -/
inductive SystemStatus where
  | notInitialized
  | report (status : String) (initialized mainAgentAvailable : Bool)
deriving DecidableEq

/-- The `"status"` value of a `get_system_status` result. -/
def SystemStatus.statusValue : SystemStatus → String
  | .notInitialized => "not_initialized"
  | .report st _ _ => st

/-- Embedding of `AgentSystem.get_system_status` (lines 101-115). -/
def get_system_status (st : State) : SystemStatus :=
  if !st.initialized then .notInitialized
  else
    .report (if is_ready st then "ready" else "not_ready") st.initialized
      st.mainAgentPresent

end AgentSystem

/-! ### Tool decorator schema inference

Embedding of the `tool` decorator from `src/cli/src/infragpt/tools.py`
lines 58-143: the part that derives the `InputSchema` from the wrapped
function's signature.
-/

namespace ToolDecorator

/-- A Python type annotation as the decorator distinguishes them: absent
(`inspect.Parameter.empty`), the four scalar types, `Optional[T]`
(a `Union` whose `__args__` contain `NoneType`; the stored `T` is the
first non-`None` argument), or anything else. -/
inductive PyAnn where
  | empty
  | aStr
  | aInt
  | aFloat
  | aBool
  | aOptional (inner : PyAnn)
  | aOther
deriving DecidableEq

/-- A concrete Python default value as it ends up in the schema. -/
inductive PyVal where
  | vNone
  | vInt (n : Int)
  | vStr (s : String)
  | vBool (b : Bool)
deriving DecidableEq

/-- One parameter of the wrapped function's signature: name, annotation,
and default (`none` models `inspect.Parameter.empty`, i.e. no default). -/
structure SigParam where
  name : String
  annot : PyAnn
  default : Option PyVal
deriving DecidableEq

/-- The `Parameter` record stored in the schema's `properties`. -/
structure SchemaParam where
  type : String
  description : String
  default : PyVal
deriving DecidableEq

/-- The `InputSchema` record attached to the decorated function. -/
structure InputSchema where
  type : String
  properties : List (String × SchemaParam)
  required : List String
  additionalProperties : Bool
deriving DecidableEq

/-- The scalar-annotation type mapping used twice in the decorator body
(`str/int/float/bool` to JSON-schema names); any other annotation leaves
the type unchanged. -/
def scalarType (ann : PyAnn) (dflt : String) : String :=
  match ann with
  | .aStr => "string"
  | .aInt => "integer"
  | .aFloat => "number"
  | .aBool => "boolean"
  | _ => dflt

/-- Per-parameter schema inference (decorator lines 76-116): start from
type `"string"` and description `"Parameter <name>"`; when an annotation
is present apply the direct scalar checks, then, when the annotation is an
`Optional`, map its inner type and tag the description. -/
def inferParam (p : SigParam) : SchemaParam :=
  let baseDefault : PyVal := (p.default).getD .vNone
  match p.annot with
  | .empty => ⟨"string", "Parameter " ++ p.name, baseDefault⟩
  | ann =>
    let direct := scalarType ann "string"
    match ann with
    | .aOptional inner =>
      ⟨scalarType inner direct, "Optional parameter " ++ p.name, baseDefault⟩
    | _ => ⟨direct, "Parameter " ++ p.name, baseDefault⟩

/-- Embedding of the schema construction of the `tool` decorator: one
property per signature parameter in order, and `required` collecting, in
order, exactly the parameters with no default value. -/
def buildInputSchema (sig : List SigParam) : InputSchema :=
  { type := "object"
  , properties := sig.map (fun p => (p.name, inferParam p))
  , required := (sig.filter (fun p => p.default.isNone)).map (·.name)
  , additionalProperties := false }

end ToolDecorator

/-! ### History subsystem

Embeddings of the two history generations: `sanitize_sensitive_data` /
`log_interaction` from `src/cli/src/infragpt/history.py`, and
`HistoryManager` from `src/infragpt/utils/history.py`.  History files are
modelled as lists of entries in file order.  ISO-8601 timestamps written
by `datetime.now().isoformat()` compare lexicographically in
chronological order, so they are modelled as naturals.  The uuid4 ids,
wall-clock times and session ids generated at write time are supplied as
explicit parameters.
-/

/-- The sensitive key fragments of `sanitize_sensitive_data`
(src/cli/src/infragpt/history.py lines 42-44). -/
def sensitiveKeywords : List String :=
  ["password", "api_key", "apikey", "token", "secret", "credential", "auth",
   "access_key", "access_token", "private_key"]

/-- Whether a dict key is dropped by the sanitizer: its lowercase form
contains one of the sensitive fragments. -/
def isSensitiveKey (k : String) : Bool :=
  sensitiveKeywords.any (fun w => occursIn w (pyLower k))

mutual
/-- Embedding of `sanitize_sensitive_data` (lines 31-75).  Dicts drop every
sensitive key outright and recurse into the remaining values; lists
recurse elementwise; strings go through the ordered `re.sub` chain of
token patterns, abstracted here as the value rewriter `redact` (the chain
rewrites string contents only and plays no part in which keys survive);
other scalars pass through. -/
def sanitizeVal (redact : String → String) : JsonVal → JsonVal
  | .s v => .s (redact v)
  | .i v => .i v
  | .b v => .b v
  | .null => .null
  | .arr items => .arr (sanitizeList redact items)
  | .obj fields => .obj (sanitizeFields redact fields)

/-- `sanitize_sensitive_data` mapped over the elements of a list. -/
def sanitizeList (redact : String → String) : List JsonVal → List JsonVal
  | [] => []
  | x :: xs => sanitizeVal redact x :: sanitizeList redact xs

/-- The dict comprehension of `sanitize_sensitive_data`: skip sensitive
keys, recurse on the values of the others. -/
def sanitizeFields (redact : String → String) :
    List (String × JsonVal) → List (String × JsonVal)
  | [] => []
  | (k, v) :: rest =>
    if isSensitiveKey k then sanitizeFields redact rest
    else (k, sanitizeVal redact v) :: sanitizeFields redact rest
end

mutual
/-- Decides the claim-C1 redaction invariant on a value: no dict at any
depth has a key whose lowercase form contains a sensitive fragment. -/
def noSensitiveVal : JsonVal → Bool
  | .arr items => noSensitiveList items
  | .obj fields => noSensitiveFields fields
  | _ => true

/-- `noSensitiveVal` over the elements of a list. -/
def noSensitiveList : List JsonVal → Bool
  | [] => true
  | x :: xs => noSensitiveVal x && noSensitiveList xs

/-- `noSensitiveVal` over dict fields, also requiring each key to be
non-sensitive. -/
def noSensitiveFields : List (String × JsonVal) → Bool
  | [] => true
  | (k, v) :: rest =>
    !isSensitiveKey k && noSensitiveVal v && noSensitiveFields rest
end

/-- `INTERACTION_FIELD_ALLOWLIST` (src/cli/src/infragpt/history.py lines
22-30). -/
def interactionFieldAllowlist : List (String × List String) :=
  [("agent_conversation_v2",
    ["user_input", "assistant_response", "model", "timestamp"])]

/-- The `data` object that `log_interaction`
(src/cli/src/infragpt/history.py lines 77-118) persists: sanitize, then
keep only the allow-listed fields of the interaction type; with no
allow-list for the type, or a non-dict sanitized value, an empty object is
stored. -/
def log_interaction_data (redact : String → String) (interaction_type : String)
    (data : JsonVal) : JsonVal :=
  let allowed := (dictGet interactionFieldAllowlist interaction_type).getD []
  if allowed.isEmpty then .obj []
  else
    match sanitizeVal redact data with
    | .obj fields =>
      .obj (allowed.filterMap (fun k => (dictGet fields k).map (fun v => (k, v))))
    | _ => .obj []

/-- A history entry written by the `cli/` `log_interaction`
(`{id, timestamp, type, data}`). -/
structure CliHistEntry where
  id : String
  timestamp : String
  type : String
  data : JsonVal

/-- Embedding of `log_interaction(interaction_type, data)` appending to the
history file, with the generated uuid and timestamp as parameters. -/
def log_interaction (redact : String → String) (newId ts : String)
    (interaction_type : String) (data : JsonVal)
    (file : List CliHistEntry) : List CliHistEntry :=
  file ++ [⟨newId, ts, interaction_type,
            log_interaction_data redact interaction_type data⟩]

namespace HistoryManager

/-- A history entry written by `HistoryManager`
(`{id, timestamp, type, data, session_id}`), timestamps as naturals. -/
structure HEntry where
  id : String
  timestamp : Nat
  type : String
  data : JsonVal
  session_id : String

/-- Embedding of `HistoryManager.add_entry`
(src/infragpt/utils/history.py lines 30-56): build the entry from the
given type and data — the data is persisted exactly as passed, no
sanitization happens on this path — and append it to the history file.
`newId`, `now` and `sess` stand for the uuid, `datetime.now()` and
session id generated at the call. -/
def add_entry (file : List HEntry) (newId : String) (now : Nat)
    (sess : String) (interaction_type : String) (data : JsonVal) :
    List HEntry :=
  file ++ [⟨newId, now, interaction_type, data, sess⟩]

/-- The filter applied per line by `get_entries` (lines 92-126) for the
type and date criteria (the modeled call site, `clear_history`, passes
none of them; the `search_term` JSON-serialization filter is likewise
`None` there and is not modelled). -/
def entryPasses (interaction_type : Option String)
    (start_date end_date : Option Nat) (e : HEntry) : Bool :=
  (match interaction_type with
   | some t => e.type = t
   | none => true) &&
  (match start_date with
   | some d => d ≤ e.timestamp
   | none => true) &&
  (match end_date with
   | some d => e.timestamp ≤ d
   | none => true)

/-- Embedding of `HistoryManager.get_entries` (lines 58-134): filter the
file's entries, sort newest first (Python's stable `sort` with
`reverse=True` on the timestamp key), and take at most `limit`. -/
def get_entries (file : List HEntry) (limit : Nat)
    (interaction_type : Option String) (start_date end_date : Option Nat) :
    List HEntry :=
  ((file.filter (entryPasses interaction_type start_date end_date)).mergeSort
      (fun a b => b.timestamp ≤ a.timestamp)).take limit

/-- Re-adding the kept entries in `clear_history`: the file was unlinked,
then each kept entry is passed back through `add_entry`, which generates a
fresh id, timestamp and session id for it (supplied by `fresh`, indexed by
call order) while keeping only its type and data. -/
def readdAll (fresh : Nat → String × Nat × String) :
    List HEntry → Nat → List HEntry → List HEntry
  | [], _, acc => acc
  | e :: rest, i, acc =>
    readdAll fresh rest (i + 1)
      (add_entry acc (fresh i).1 (fresh i).2.1 (fresh i).2.2 e.type e.data)

/-- Embedding of `HistoryManager.clear_history` (lines 302-354): with no
cutoff, delete the whole file; with a cutoff, read all entries
(`limit=999999`), keep those dated at or after the cutoff, delete the
file, and write the kept entries back through `add_entry` in ascending
timestamp order. -/
def clear_history (file : List HEntry) (older_than : Option Nat)
    (fresh : Nat → String × Nat × String) : List HEntry :=
  match older_than with
  | none => []
  | some cutoff =>
    let all_entries := get_entries file 999999 none none none
    let keep_entries := all_entries.filter (fun e => cutoff ≤ e.timestamp)
    let sorted_keep :=
      keep_entries.mergeSort (fun a b => a.timestamp ≤ b.timestamp)
    readdAll fresh sorted_keep 0 []

end HistoryManager

/-! ## Theorems

Helper lemmas first, then one theorem per claim (with witnesses and
counterexamples where required).
-/

theorem takeWhile_append_stop {α : Type} (p : α → Bool) (l1 l2 : List α)
    (x : α) (h1 : ∀ c ∈ l1, p c = true) (hx : p x = false) :
    (l1 ++ x :: l2).takeWhile p = l1 ∧ (l1 ++ x :: l2).dropWhile p = x :: l2 := by
  induction l1 with
  | nil => simp [List.takeWhile_cons, List.dropWhile_cons, hx]
  | cons a as ih =>
    have ha : p a = true := h1 a (by simp)
    have ih' := ih (fun c hc => h1 c (by simp [hc]))
    simp [List.takeWhile_cons, List.dropWhile_cons, ha, ih'.1, ih'.2]

theorem bracketScan_sound (n : Nat) :
    ∀ l : List Char, l.length ≤ n →
      (∀ s ∈ findBracketMatches l,
          s.data ≠ [] ∧ s.data.all isUpperOrUnderscore = true) ∧
      ∀ run : List Char, run.all isUpperOrUnderscore = true →
        ∀ s ∈ scanRun run l,
          s.data ≠ [] ∧ s.data.all isUpperOrUnderscore = true := by
  induction n with
  | zero =>
    intro l hl
    have hnil : l = [] := List.length_eq_zero.mp (Nat.le_zero.mp hl)
    subst hnil
    refine ⟨fun s hs => ?_, fun run _ s hs => ?_⟩ <;>
      simp [findBracketMatches, scanRun] at hs
  | succ n ih =>
    intro l hl
    cases l with
    | nil =>
      refine ⟨fun s hs => ?_, fun run _ s hs => ?_⟩ <;>
        simp [findBracketMatches, scanRun] at hs
    | cons c rest =>
      have hr : rest.length ≤ n := by
        simp only [List.length_cons] at hl; omega
      constructor
      · intro s hs
        simp only [findBracketMatches] at hs
        by_cases hc : c = '['
        · rw [if_pos hc] at hs
          exact (ih rest hr).2 [] rfl s hs
        · rw [if_neg hc] at hs
          exact (ih rest hr).1 s hs
      · intro run hrun s hs
        simp only [scanRun] at hs
        by_cases hu : isUpperOrUnderscore c = true
        · rw [if_pos hu] at hs
          refine (ih rest hr).2 (run ++ [c]) ?_ s hs
          simp [List.all_append, hrun, hu]
        · rw [if_neg hu] at hs
          by_cases hcl : (c = ']' && !run.isEmpty) = true
          · rw [if_pos hcl] at hs
            rcases List.mem_cons.mp hs with h | h
            · subst h
              have hne : run ≠ [] := by
                have h2 := hcl
                simp [List.isEmpty_iff] at h2
                exact h2.2
              exact ⟨hne, hrun⟩
            · exact (ih rest hr).1 s h
          · rw [if_neg hcl] at hs
            by_cases hob : c = '['
            · rw [if_pos hob] at hs
              exact (ih rest hr).2 [] rfl s hs
            · rw [if_neg hob] at hs
              exact (ih rest hr).1 s hs

theorem findBracketMatches_sound (l : List Char) :
    ∀ s ∈ findBracketMatches l,
      s.data ≠ [] ∧ s.data.all isUpperOrUnderscore = true :=
  (bracketScan_sound l.length l le_rfl).1

theorem processFlagToken_brackets (acc : ParseAcc) (part : String) :
    (processFlagToken acc part).brackets = acc.brackets := by
  simp only [processFlagToken]
  split
  · split <;> rfl
  · cases hcur : acc.current <;> simp

theorem foldl_processToken_brackets_sound (parts : List String) :
    ∀ acc : ParseAcc,
      (∀ s ∈ acc.brackets,
        s.data ≠ [] ∧ s.data.all isUpperOrUnderscore = true) →
      ∀ s ∈ (parts.foldl processToken acc).brackets,
        s.data ≠ [] ∧ s.data.all isUpperOrUnderscore = true := by
  induction parts with
  | nil => intro acc hacc; simpa using hacc
  | cons p ps ih =>
    intro acc hacc
    simp only [List.foldl_cons]
    apply ih
    intro s hs
    have hb : (processToken acc p).brackets
        = acc.brackets ++ findBracketMatches p.data := by
      simp only [processToken, processFlagToken_brackets]
    rw [hb] at hs
    rcases List.mem_append.mp hs with h | h
    · exact hacc s h
    · exact findBracketMatches_sound p.data s h

/-- C3, as stated by the spec, is refuted at a concrete input: the splitter
tests `"Request cannot be fulfilled." in result` (substring containment),
so a two-line response whose second line is the sentinel is returned whole
as a one-element list instead of being split on newlines. -/
theorem claim3_counterexample :
    ("ls\nRequest cannot be fulfilled." : String) ≠ fulfillSentinel
  ∧ split_commands "ls\nRequest cannot be fulfilled."
      = ["ls\nRequest cannot be fulfilled."]
  ∧ newlineSplit "ls\nRequest cannot be fulfilled."
      = ["ls", "Request cannot be fulfilled."]
  ∧ (["ls\nRequest cannot be fulfilled."] : List String)
      ≠ ["ls", "Request cannot be fulfilled."] := by
  refine ⟨by decide, by decide, by decide, by decide⟩

/-- C3 (amended): a response that contains `"Request cannot be fulfilled."`
as a substring — in particular the response exactly equal to it — splits to
the one-element list holding the whole response, and the display layer
stops after printing when the first split command equals the sentinel
exactly; a response not containing the sentinel splits on newlines with
blank lines discarded. -/
theorem claim3_sentinel_split_amended (result : String) :
    (occursIn fulfillSentinel result = true → split_commands result = [result])
  ∧ (occursIn fulfillSentinel result = false →
      split_commands result = newlineSplit result)
  ∧ split_commands fulfillSentinel = [fulfillSentinel]
  ∧ handle_command_result fulfillSentinel = .sentinelStop := by
  refine ⟨fun h => ?_, fun h => ?_, by decide, by decide⟩
  · simp [split_commands, h]
  · simp [split_commands, h]

theorem claim3_sentinel_split_amended_witness :
    split_commands "do\nRequest cannot be fulfilled."
      = ["do\nRequest cannot be fulfilled."]
  ∧ split_commands "cmd a\n\ncmd b" = newlineSplit "cmd a\n\ncmd b" :=
  ⟨(claim3_sentinel_split_amended "do\nRequest cannot be fulfilled.").1
      (by decide),
    (claim3_sentinel_split_amended "cmd a\n\ncmd b").2.1 (by decide)⟩

/-- C6: parsing `"gcloud compute instances create [INSTANCE_NAME]
--zone=[ZONE]"` yields `bracket_params = ["INSTANCE_NAME", "ZONE"]` in
order of first appearance and `params["zone"] = "[ZONE]"` with the
placeholder kept embedded in the flag value; and in general a
`--name=value` token is split only on the first `=`, so everything after
the first `=` (further `=` signs included) becomes the value of `name`. -/
theorem claim6_flag_and_bracket_parsing :
    parse_command_parameters
        "gcloud compute instances create [INSTANCE_NAME] --zone=[ZONE]" =
      ("gcloud compute instances create [INSTANCE_NAME]",
        [("zone", some "[ZONE]")], ["INSTANCE_NAME", "ZONE"])
  ∧ ∀ (acc : ParseAcc) (nm vl : List Char), (∀ c ∈ nm, (c == '=') = false) →
      (processToken acc (String.mk ('-' :: '-' :: (nm ++ '=' :: vl)))).params =
        dictSet acc.params (String.mk nm) (some (String.mk vl)) := by
  constructor
  · decide
  · intro acc nm vl hnm
    have hsplit :=
      takeWhile_append_stop (fun c => !(c == '='))
        ('-' :: '-' :: nm) vl '='
        (by
          intro c hc
          rcases List.mem_cons.mp hc with h | hc'
          · subst h; decide
          rcases List.mem_cons.mp hc' with h | h
          · subst h; decide
          · simp [hnm c h])
        (by decide)
    have heq : ('-' :: '-' :: nm) ++ '=' :: vl = '-' :: '-' :: (nm ++ '=' :: vl) := by
      simp
    rw [heq] at hsplit
    simp only [processToken, processFlagToken]
    rw [if_pos (by simp [listStartsWith])]
    rw [if_pos (by refine List.any_eq_true.mpr ⟨'=', by simp, by decide⟩)]
    simp only [hsplit.1, hsplit.2, List.tail_cons, List.drop_succ_cons,
      List.drop_zero]

theorem claim6_flag_and_bracket_parsing_witness :
    (processToken ⟨[], [], none, []⟩
        (String.mk
          ('-' :: '-' :: (['m', 't'] ++ '=' :: ['e', '2', '=', 'x'])))).params =
      dictSet [] (String.mk ['m', 't']) (some (String.mk ['e', '2', '=', 'x'])) :=
  claim6_flag_and_bracket_parsing.2 ⟨[], [], none, []⟩ ['m', 't']
    ['e', '2', '=', 'x'] (by decide)

/-- C10: the bracket-placeholder regex `\[([A-Z_]+)\]` only ever extracts
nonempty runs of uppercase letters and underscores, so every entry of
`bracket_params` consists of such characters only, and a placeholder whose
inner text contains any other character — such as the digit in `[ZONE1]` or
the lowercase letters in `[zone_a]` — is never added and hence never
offered for substitution. -/
theorem claim10_bracket_param_character_class :
    (∀ (command : String), ∀ s ∈ (parse_command_parameters command).2.2,
        s.data ≠ [] ∧ s.data.all isUpperOrUnderscore = true)
  ∧ parse_command_parameters
        "gcloud compute instances create [ZONE1] --zone=[zone_a]" =
      ("gcloud compute instances create [ZONE1]",
        [("zone", some "[zone_a]")], []) := by
  constructor
  · intro command s hs
    exact foldl_processToken_brackets_sound (pySplitWs command)
      ⟨[], [], none, []⟩ (by intro s hs; simp at hs) s hs
  · decide

theorem claim10_bracket_param_character_class_witness :
    ("B_C" : String).data ≠ []
  ∧ ("B_C" : String).data.all isUpperOrUnderscore = true :=
  claim10_bracket_param_character_class.1 "run [B_C] now" "B_C" (by decide)

/-- C4: for a cache entry found under the computed key, a stored timestamp
of `now - (ttl + 1)` makes `LLMResponseCache.get` a miss that deletes the
entry's file from the cache directory, while a stored timestamp of `now`
is a hit that returns the stored response verbatim and leaves the
directory unchanged. -/
theorem claim4_cache_expiry (ttl : Int) (hash : String → String)
    (dir : LLMResponseCache.CacheDir) (model prompt : String)
    (system_prompt : Option String) (now : Int)
    (entry : LLMResponseCache.CacheEntry) (httl : 0 ≤ ttl)
    (hfound :
      dictGet dir (hash (LLMResponseCache.keyData model prompt system_prompt))
        = some entry) :
    (entry.timestamp = now - (ttl + 1) →
      LLMResponseCache.get ttl hash dir model prompt system_prompt now =
        (none,
          LLMResponseCache.removeKey dir
            (hash (LLMResponseCache.keyData model prompt system_prompt))))
  ∧ (entry.timestamp = now →
      LLMResponseCache.get ttl hash dir model prompt system_prompt now =
        (some entry.response, dir)) := by
  constructor
  · intro hts
    simp only [LLMResponseCache.get, hfound]
    split
    · rfl
    · exfalso; omega
  · intro hts
    simp only [LLMResponseCache.get, hfound]
    split
    · exfalso; omega
    · rfl

theorem claim4_cache_expiry_witness :
    LLMResponseCache.get 86400 (fun s => s)
        [("m:p", ⟨"m", "p", none, "resp", 13599⟩)] "m" "p" none 100000 =
      (none,
        LLMResponseCache.removeKey [("m:p", ⟨"m", "p", none, "resp", 13599⟩)]
          ((fun s => s) (LLMResponseCache.keyData "m" "p" none)))
  ∧ LLMResponseCache.get 86400 (fun s => s)
        [("m:p", ⟨"m", "p", none, "resp", 100000⟩)] "m" "p" none 100000 =
      (some "resp", [("m:p", ⟨"m", "p", none, "resp", 100000⟩)]) :=
  ⟨(claim4_cache_expiry 86400 (fun s => s)
      [("m:p", ⟨"m", "p", none, "resp", 13599⟩)] "m" "p" none 100000
      ⟨"m", "p", none, "resp", 13599⟩ (by decide) (by decide)).1 (by decide),
    (claim4_cache_expiry 86400 (fun s => s)
      [("m:p", ⟨"m", "p", none, "resp", 100000⟩)] "m" "p" none 100000
      ⟨"m", "p", none, "resp", 100000⟩ (by decide) (by decide)).2 (by decide)⟩

/-- C5: loading a config file that holds only the legacy keys `model` and
`api_key` (no `version` field) synthesizes a profile named `"default"`
holding those values, makes it the default profile pointer, and
`get_credentials()` with no argument returns the migrated pair. -/
theorem claim5_legacy_config_migration (mv kv : JsonVal) :
    Config.get_default_profile
        (Config.load Config.new (some [("model", mv), ("api_key", kv)]))
      = some (.s "default")
  ∧ Config.get_profile_names
        (Config.load Config.new (some [("model", mv), ("api_key", kv)]))
      = ["default"]
  ∧ Config.get_credentials
        (Config.load Config.new (some [("model", mv), ("api_key", kv)])) none
      = .obj [("model", mv), ("api_key", kv)] :=
  ⟨rfl, rfl, rfl⟩

/-- C7: with no usable command-line credentials and no stored config
credentials, when exactly one provider key is present in the environment
and the resolved model (the `--model` option, else `INFRAGPT_MODEL`) is
set and does not name that key's provider, `get_credentials` exits the
process with status 1 instead of returning credentials or prompting. -/
theorem claim7_single_env_key_model_mismatch
    (model_type api_key stored_model stored_api_key : Option String)
    (openai_key anthropic_key env_model : Option String)
    (hcli :
      (CredentialResolution.truthy model_type &&
        CredentialResolution.truthy api_key &&
        !(pyStrip (api_key.getD "") = "" : Bool)) = false)
    (hstored :
      (CredentialResolution.truthy stored_model &&
        CredentialResolution.truthy stored_api_key &&
        !(pyStrip (stored_api_key.getD "") = "" : Bool)) = false) :
    (CredentialResolution.truthy anthropic_key = true →
      CredentialResolution.truthy openai_key = false →
      CredentialResolution.truthy
          (if CredentialResolution.truthy model_type then model_type
           else env_model) = true →
      ¬((if CredentialResolution.truthy model_type then model_type
         else env_model) = some "claude") →
      CredentialResolution.get_credentials model_type api_key stored_model
          stored_api_key openai_key anthropic_key env_model = .exitOne)
  ∧ (CredentialResolution.truthy openai_key = true →
      CredentialResolution.truthy anthropic_key = false →
      CredentialResolution.truthy
          (if CredentialResolution.truthy model_type then model_type
           else env_model) = true →
      ¬((if CredentialResolution.truthy model_type then model_type
         else env_model) = some "gpt4o") →
      CredentialResolution.get_credentials model_type api_key stored_model
          stored_api_key openai_key anthropic_key env_model = .exitOne) := by
  constructor
  · intro ha ho hres hneq
    simp only [CredentialResolution.get_credentials, hcli, hstored]
    simp [ha, ho, hres, decide_eq_false hneq]
  · intro ho ha hres hneq
    simp only [CredentialResolution.get_credentials, hcli, hstored]
    simp [ha, ho, hres, decide_eq_false hneq]

theorem claim7_single_env_key_model_mismatch_witness :
    CredentialResolution.get_credentials none none none none none
        (some "sk-ant-key") (some "gpt4o") = .exitOne
  ∧ CredentialResolution.get_credentials none none none none
        (some "sk-oai-key") none (some "claude") = .exitOne :=
  ⟨(claim7_single_env_key_model_mismatch none none none none none
      (some "sk-ant-key") (some "gpt4o") (by decide) (by decide)).1
      (by decide) (by decide) (by decide) (by decide),
    (claim7_single_env_key_model_mismatch none none none none
      (some "sk-oai-key") none (some "claude") (by decide) (by decide)).2
      (by decide) (by decide) (by decide) (by decide)⟩

/-- C8: calling `process_request` on a fresh, uninitialized `AgentSystem`
raises (`RuntimeError`) rather than returning a degraded response; before
initialization `get_system_status()` is the bare
`{"status": "not_initialized"}`; after `initialize()` completes,
`is_ready()` is true, `get_system_status()["status"]` is `"ready"`, and
`process_request` delegates to the main agent. -/
theorem claim8_agent_system_readiness_gate :
    AgentSystem.process_request AgentSystem.new = .raisesNotInitialized
  ∧ AgentSystem.get_system_status AgentSystem.new = .notInitialized
  ∧ AgentSystem.is_ready (AgentSystem.initAgents AgentSystem.new) = true
  ∧ (AgentSystem.get_system_status
      (AgentSystem.initAgents AgentSystem.new)).statusValue = "ready"
  ∧ AgentSystem.process_request (AgentSystem.initAgents AgentSystem.new)
      = .delegatesToMainAgent := by
  decide

/-- C9: the tool decorator applied to
`f(a: str, b: int = 5, c: Optional[bool] = None)` yields a schema whose
`required` list is exactly `["a"]` and whose properties map `a` to
`"string"`, `b` to `"integer"` and `c` to `"boolean"` (the `Optional` is
unwrapped to its inner type); in general, for signatures with distinct
parameter names, a parameter is required exactly when it has no default
value. -/
theorem claim9_tool_schema_inference :
    (ToolDecorator.buildInputSchema
        [⟨"a", .aStr, none⟩, ⟨"b", .aInt, some (.vInt 5)⟩,
         ⟨"c", .aOptional .aBool, some .vNone⟩]).required = ["a"]
  ∧ (dictGet
        (ToolDecorator.buildInputSchema
          [⟨"a", .aStr, none⟩, ⟨"b", .aInt, some (.vInt 5)⟩,
           ⟨"c", .aOptional .aBool, some .vNone⟩]).properties "a").map
        (·.type) = some "string"
  ∧ (dictGet
        (ToolDecorator.buildInputSchema
          [⟨"a", .aStr, none⟩, ⟨"b", .aInt, some (.vInt 5)⟩,
           ⟨"c", .aOptional .aBool, some .vNone⟩]).properties "b").map
        (·.type) = some "integer"
  ∧ (dictGet
        (ToolDecorator.buildInputSchema
          [⟨"a", .aStr, none⟩, ⟨"b", .aInt, some (.vInt 5)⟩,
           ⟨"c", .aOptional .aBool, some .vNone⟩]).properties "c").map
        (·.type) = some "boolean"
  ∧ ∀ (sig : List ToolDecorator.SigParam),
      (sig.map (·.name)).Nodup →
      ∀ p ∈ sig,
        (p.name ∈ (ToolDecorator.buildInputSchema sig).required ↔
          p.default = none) := by
  refine ⟨by decide, by decide, by decide, by decide, ?_⟩
  intro sig hnodup p hp
  constructor
  · intro hmem
    simp only [ToolDecorator.buildInputSchema] at hmem
    rcases List.mem_map.mp hmem with ⟨q, hq, hqname⟩
    rcases List.mem_filter.mp hq with ⟨hqsig, hqnone⟩
    have hpq : q = p :=
      List.inj_on_of_nodup_map hnodup hqsig hp hqname
    rw [← hpq]
    exact Option.isNone_iff_eq_none.mp hqnone
  · intro hnone
    simp only [ToolDecorator.buildInputSchema]
    exact List.mem_map.mpr
      ⟨p, List.mem_filter.mpr ⟨hp, by simp [hnone]⟩, rfl⟩

mutual
theorem noSensitiveVal_sanitizeVal (redact : String → String) (v : JsonVal) :
    noSensitiveVal (sanitizeVal redact v) = true := by
  cases v with
  | s v => rfl
  | i v => rfl
  | b v => rfl
  | null => rfl
  | arr items =>
    simp only [sanitizeVal, noSensitiveVal]
    exact noSensitiveList_sanitizeList redact items
  | obj fields =>
    simp only [sanitizeVal, noSensitiveVal]
    exact noSensitiveFields_sanitizeFields redact fields

theorem noSensitiveList_sanitizeList (redact : String → String)
    (l : List JsonVal) : noSensitiveList (sanitizeList redact l) = true := by
  cases l with
  | nil => rfl
  | cons x xs =>
    simp only [sanitizeList, noSensitiveList, Bool.and_eq_true]
    exact ⟨noSensitiveVal_sanitizeVal redact x,
      noSensitiveList_sanitizeList redact xs⟩

theorem noSensitiveFields_sanitizeFields (redact : String → String)
    (l : List (String × JsonVal)) :
    noSensitiveFields (sanitizeFields redact l) = true := by
  cases l with
  | nil => rfl
  | cons kv rest =>
    obtain ⟨k, v⟩ := kv
    simp only [sanitizeFields]
    by_cases h : isSensitiveKey k = true
    · rw [if_pos h]
      exact noSensitiveFields_sanitizeFields redact rest
    · rw [if_neg h]
      simp only [noSensitiveFields, Bool.and_eq_true]
      exact ⟨⟨by simp [Bool.eq_false_iff.mpr h], noSensitiveVal_sanitizeVal redact v⟩,
        noSensitiveFields_sanitizeFields redact rest⟩
end

theorem dictGet_mem {α : Type} (d : List (String × α)) (k : String) (v : α)
    (h : dictGet d k = some v) : (k, v) ∈ d := by
  induction d with
  | nil => simp [dictGet] at h
  | cons kv rest ih =>
    obtain ⟨k', v'⟩ := kv
    simp only [dictGet] at h
    by_cases hk : k' = k
    · rw [if_pos hk] at h
      subst hk
      simp at h
      subst h
      simp
    · rw [if_neg hk] at h
      exact List.mem_cons_of_mem _ (ih h)

theorem noSensitiveFields_mem (fields : List (String × JsonVal))
    (h : noSensitiveFields fields = true) :
    ∀ kv ∈ fields, isSensitiveKey kv.1 = false ∧ noSensitiveVal kv.2 = true := by
  induction fields with
  | nil => simp
  | cons kv0 rest ih =>
    obtain ⟨k, v⟩ := kv0
    simp only [noSensitiveFields, Bool.and_eq_true, Bool.not_eq_true'] at h
    intro kv hkv
    rcases List.mem_cons.mp hkv with hh | hh
    · subst hh
      exact ⟨h.1.1, h.1.2⟩
    · exact ih h.2 kv hh

theorem noSensitiveFields_of_forall (l : List (String × JsonVal))
    (h : ∀ kv ∈ l, isSensitiveKey kv.1 = false ∧ noSensitiveVal kv.2 = true) :
    noSensitiveFields l = true := by
  induction l with
  | nil => rfl
  | cons kv rest ih =>
    obtain ⟨k, v⟩ := kv
    have h0 := h (k, v) (by simp)
    simp only [noSensitiveFields, Bool.and_eq_true, Bool.not_eq_true']
    exact ⟨⟨h0.1, h0.2⟩, ih (fun kv hkv => h kv (List.mem_cons_of_mem _ hkv))⟩

/-- C1, as stated by the spec, is refuted at a concrete input:
`HistoryManager.add_entry` performs no redaction at all, so an entry
logged through it with a `data` dict holding the key `"api_key"` is
persisted with that sensitive key present. -/
theorem claim1_counterexample :
    (HistoryManager.add_entry [] "id-1" 0 "sess-1" "command_generation"
        (JsonVal.obj [("api_key", JsonVal.s "sk-test-value")])).map
        (fun e => noSensitiveVal e.data)
      = [false] := by
  decide

/-- C1 (amended): the redaction invariant holds on the simple
`log_interaction` path — whatever the interaction type, the data mapping
it persists contains, at any depth, no key whose lowercase form contains a
sensitive fragment — while `HistoryManager.add_entry` appends its `data`
argument verbatim, so that path gives no redaction guarantee. -/
theorem claim1_redaction_amended (redact : String → String)
    (interaction_type : String) (data : JsonVal) :
    noSensitiveVal (log_interaction_data redact interaction_type data) = true
  ∧ ∀ (file : List HistoryManager.HEntry) (newId : String) (now : Nat)
      (sess : String),
      (HistoryManager.add_entry file newId now sess interaction_type
          data).map (·.data)
        = file.map (·.data) ++ [data] := by
  constructor
  · have hclean : noSensitiveVal (sanitizeVal redact data) = true :=
      noSensitiveVal_sanitizeVal redact data
    simp only [log_interaction_data]
    split
    · rfl
    · cases hS : sanitizeVal redact data with
      | s v => rfl
      | i v => rfl
      | b v => rfl
      | null => rfl
      | arr items => rfl
      | obj fields =>
        rw [hS] at hclean
        simp only [noSensitiveVal] at hclean
        simp only [noSensitiveVal]
        apply noSensitiveFields_of_forall
        intro kv hkv
        rcases List.mem_filterMap.mp hkv with ⟨k, hk, hsome⟩
        cases hv : dictGet fields k with
        | none => rw [hv] at hsome; simp at hsome
        | some v =>
          rw [hv] at hsome
          simp only [Option.map_some', Option.some.injEq] at hsome
          subst hsome
          exact noSensitiveFields_mem fields hclean (k, v) (dictGet_mem fields k v hv)
  · intro file newId now sess
    simp [HistoryManager.add_entry]

theorem readdAll_map_type_data (fresh : Nat → String × Nat × String)
    (l : List HistoryManager.HEntry) :
    ∀ (i : Nat) (acc : List HistoryManager.HEntry),
      (HistoryManager.readdAll fresh l i acc).map (fun e => (e.type, e.data))
        = acc.map (fun e => (e.type, e.data)) ++
            l.map (fun e => (e.type, e.data)) := by
  induction l with
  | nil => intro i acc; simp [HistoryManager.readdAll]
  | cons e rest ih =>
    intro i acc
    simp only [HistoryManager.readdAll, HistoryManager.add_entry]
    rw [ih]
    simp

theorem readdAll_mem_meta (fresh : Nat → String × Nat × String)
    (l : List HistoryManager.HEntry) :
    ∀ (i : Nat) (acc : List HistoryManager.HEntry)
      (x : HistoryManager.HEntry), x ∈ HistoryManager.readdAll fresh l i acc →
      x ∈ acc ∨ ∃ j, x.id = (fresh j).1 ∧ x.timestamp = (fresh j).2.1 ∧
        x.session_id = (fresh j).2.2 := by
  induction l with
  | nil =>
    intro i acc x hx
    exact Or.inl hx
  | cons e rest ih =>
    intro i acc x hx
    simp only [HistoryManager.readdAll, HistoryManager.add_entry] at hx
    rcases ih (i + 1) _ x hx with hacc | hex
    · rcases List.mem_append.mp hacc with h | h
      · exact Or.inl h
      · simp only [List.mem_singleton] at h
        subst h
        exact Or.inr ⟨i, rfl, rfl, rfl⟩
    · exact Or.inr hex

theorem get_entries_no_filters (file : List HistoryManager.HEntry)
    (h : file.length ≤ 999999) :
    HistoryManager.get_entries file 999999 none none none
      = file.mergeSort (fun a b => decide (b.timestamp ≤ a.timestamp)) := by
  simp only [HistoryManager.get_entries]
  have hfilter :
      List.filter (HistoryManager.entryPasses none none none) file = file :=
    List.filter_eq_self.mpr (fun e _ => rfl)
  rw [hfilter]
  exact List.take_of_length_le (by rw [List.length_mergeSort]; exact h)

/-- C2, as stated by the spec, is refuted at a concrete input: an entry
dated at or after the cutoff does survive `clear_history`, but it is
rewritten through `add_entry`, which generates a fresh id and a fresh
(current) timestamp, so the surviving entry does not keep its original id
and timestamp. -/
theorem claim2_counterexample :
    (HistoryManager.clear_history
        [⟨"old-id", 10, "command_generation", JsonVal.null, "old-sess"⟩]
        (some 5) (fun _ => ("new-id", 100, "new-sess"))).map
        (fun e => (e.id, e.timestamp))
      = [("new-id", 100)]
  ∧ (("old-id", (10 : Nat))) ∉ [(("new-id" : String), (100 : Nat))] := by
  constructor
  · simp [HistoryManager.clear_history, HistoryManager.get_entries,
      HistoryManager.readdAll, HistoryManager.add_entry,
      HistoryManager.entryPasses, List.mergeSort_singleton]
  · decide

/-- C2 (amended): `clear_history(older_than=cutoff)` keeps exactly the
entries dated at or after the cutoff — as a multiset of (type, data)
pairs — and removes the entries older than the cutoff; but the kept
entries are rewritten through `add_entry`, so each carries a freshly
generated id, timestamp and session id rather than its original ones. -/
theorem claim2_clear_history_amended (file : List HistoryManager.HEntry)
    (cutoff : Nat) (fresh : Nat → String × Nat × String)
    (hlen : file.length ≤ 999999) :
    ((HistoryManager.clear_history file (some cutoff) fresh).map
        (fun e => (e.type, e.data))).Perm
      ((file.filter (fun e => cutoff ≤ e.timestamp)).map
        (fun e => (e.type, e.data)))
  ∧ ∀ e ∈ HistoryManager.clear_history file (some cutoff) fresh,
      ∃ j, e.id = (fresh j).1 ∧ e.timestamp = (fresh j).2.1 ∧
        e.session_id = (fresh j).2.2 := by
  constructor
  · simp only [HistoryManager.clear_history, get_entries_no_filters file hlen]
    rw [readdAll_map_type_data]
    simp only [List.map_nil, List.nil_append]
    refine List.Perm.map _ ?_
    refine (List.mergeSort_perm _ _).trans ?_
    exact (List.mergeSort_perm file _).filter _
  · intro e he
    simp only [HistoryManager.clear_history] at he
    rcases readdAll_mem_meta fresh _ 0 [] e he with h | h
    · simp at h
    · exact h

theorem claim2_clear_history_amended_witness :
    ([⟨"w-id", 20, "command_action", JsonVal.b true, "w-sess"⟩] :
        List HistoryManager.HEntry).length ≤ 999999
  ∧ (((HistoryManager.clear_history
          [⟨"w-id", 20, "command_action", JsonVal.b true, "w-sess"⟩]
          (some 7) (fun j => ("fresh-id", 900 + j, "fresh-sess"))).map
          (fun e => (e.type, e.data))).Perm
        ((([⟨"w-id", 20, "command_action", JsonVal.b true, "w-sess"⟩] :
            List HistoryManager.HEntry).filter
            (fun e => 7 ≤ e.timestamp)).map (fun e => (e.type, e.data))))
    ∧ ∀ e ∈ HistoryManager.clear_history
          [⟨"w-id", 20, "command_action", JsonVal.b true, "w-sess"⟩]
          (some 7) (fun j => ("fresh-id", 900 + j, "fresh-sess")),
        ∃ j, e.id = ((fun j => ("fresh-id", 900 + j, "fresh-sess")) j).1 ∧
          e.timestamp = ((fun j => ("fresh-id", 900 + j, "fresh-sess")) j).2.1 ∧
          e.session_id = ((fun j => ("fresh-id", 900 + j, "fresh-sess")) j).2.2 :=
  ⟨by decide,
    claim2_clear_history_amended
      [⟨"w-id", 20, "command_action", JsonVal.b true, "w-sess"⟩] 7
      (fun j => ("fresh-id", 900 + j, "fresh-sess")) (by decide)⟩

theorem claim9_tool_schema_inference_witness :
    ("a" : String) ∈
        (ToolDecorator.buildInputSchema
          [⟨"a", .aStr, none⟩, ⟨"b", .aInt, some (.vInt 5)⟩,
           ⟨"c", .aOptional .aBool, some .vNone⟩]).required ↔
      (⟨"a", .aStr, none⟩ : ToolDecorator.SigParam).default = none :=
  claim9_tool_schema_inference.2.2.2.2
    [⟨"a", .aStr, none⟩, ⟨"b", .aInt, some (.vInt 5)⟩,
     ⟨"c", .aOptional .aBool, some .vNone⟩] (by decide)
    ⟨"a", .aStr, none⟩ (by decide)

end InfraGPT
